import Mathlib

/-!
Verification development for the document-processing repository:
a shallow embedding of

* `src/lambdas/trigger-upload/index.py` — the document router
  (`process_legal_document`, `lambda_handler`), and
* `src/backend/vietocr-server.py` — the detect-then-recognize OCR pipeline
  (`preprocess_image` and the `/ocr` handler).

External collaborators (S3, Lambda invocations, the detection and
recognition models) are modelled as oracles/inputs; machine floats are
modelled by exact rationals with Python `int()` as truncation toward zero.
-/

/-- Python `str.lower()` restricted to ASCII case mapping, applied
character by character (the document-type tags compared in the source are
ASCII). -/
def pyLower (s : String) : String := ⟨s.data.map Char.toLower⟩

/-- Python truthiness/whitespace test support: the characters
`str.strip()` removes. -/
def pyIsSpace (c : Char) : Bool :=
  c = ' ' || c = '\t' || c = '\n' || c = '\r' || c = '\x0b' || c = '\x0c'

/-- Python `str.strip()`: drop whitespace from both ends. -/
def pyStrip (s : String) : String :=
  ⟨((s.data.dropWhile pyIsSpace).reverse.dropWhile pyIsSpace).reverse⟩

/-- Python `sep.join(parts)`: concatenate with `sep` between consecutive
elements; empty for the empty list. -/
def pyJoin (sep : String) : List String → String
  | [] => ""
  | [s] => s
  | s :: rest => s ++ sep ++ pyJoin sep rest

/-- Python `int(x)` on a float value: truncation toward zero, modelled on
exact rationals. -/
def pyTrunc (q : ℚ) : ℤ := if 0 ≤ q then ⌊q⌋ else ⌈q⌉

/-- Nearest-integer rounding (ties upward); models PIL's `round_aspect`
choice of the closest integer to the exact aspect-preserving value. -/
def rnd (q : ℚ) : ℤ := ⌊q + 1/2⌋

namespace TriggerUpload

/-- External collaborators the router can invoke, in the order the source
invokes them.  `saverAsync` is the result-persistence Lambda invoked with
`InvocationType='Event'` (fire-and-forget); every other invocation is a
synchronous `RequestResponse` round trip.  `generic` is
`process_with_existing_bedrock`. -/
inductive Call
  | headMeta
  | qrDetect
  | qrDecode
  | saverAsync
  | vietocr
  | bedrockQA
  | generic
deriving DecidableEq, Repr

/-- Error kinds raised by `process_legal_document`. `extractionEmpty` is the
in-code `raise Exception('VietOCR returned no text')`. -/
inductive ErrKind
  | extractionEmpty
deriving DecidableEq, Repr

/-- Outcome of `process_legal_document`: returned `True`/`False`, or a
raised exception (re-raised by the function's own `except` block). -/
inductive Outcome
  | ok (processedAsLegal : Bool)
  | raised (k : ErrKind)
deriving DecidableEq, Repr

/-- Outcome of a loop prefix inside `lambda_handler`: ran to completion, or
an exception propagated out. -/
inductive RunResult
  | completed
  | raised (k : ErrKind)
deriving DecidableEq, Repr

/-- The per-document environment: the S3 `document-type` metadata tag
(`none` when the tag is absent) and the payloads the collaborator Lambdas
would return for this document. -/
structure DocEnv where
  docType : Option String
  hasQR : Bool
  decodedText : Option String
  ocrText : String

/-- Shallow embedding of `process_legal_document(bucket, key)`
(src/lambdas/trigger-upload/index.py, lines 12-104).  Returns the trace of
collaborator invocations in order, together with the outcome. -/
def process_legal_document (env : DocEnv) : List Call × Outcome :=
  -- head_object; `head.get('Metadata', {}).get('document-type', '').lower()`
  let docType := pyLower (env.docType.getD "")
  if docType ≠ "legal registration" then
    ([Call.headMeta], Outcome.ok false)
  else
    -- `qr_result.get('hasQR') and qr_result.get('decodedText')`
    if env.hasQR ∧ env.decodedText.getD "" ≠ "" then
      -- QR fast path: decode synchronously, then save asynchronously
      ([Call.headMeta, Call.qrDetect, Call.qrDecode, Call.saverAsync],
        Outcome.ok true)
    else
      -- slow path: VietOCR; `if not ocr_result.get('text'): raise ...`
      if env.ocrText = "" then
        ([Call.headMeta, Call.qrDetect, Call.vietocr],
          Outcome.raised ErrKind.extractionEmpty)
      else
        ([Call.headMeta, Call.qrDetect, Call.vietocr, Call.bedrockQA,
          Call.saverAsync], Outcome.ok true)

/-- One S3 record inside `lambda_handler`'s inner loop: run
`process_legal_document`; when it returns `False`, hand the document to
`process_with_existing_bedrock` (which always succeeds).  Exceptions
propagate. -/
def handleS3Record (env : DocEnv) : List Call × RunResult :=
  match process_legal_document env with
  | (tr, Outcome.ok true) => (tr, RunResult.completed)
  | (tr, Outcome.ok false) => (tr ++ [Call.generic], RunResult.completed)
  | (tr, Outcome.raised e) => (tr, RunResult.raised e)

/-- The inner `for s3_record in s3_records` loop.  There is no per-record
`try`, so an exception aborts the loop; the traces of the records reached
so far (including the failing one) are returned. -/
def runS3Records : List DocEnv → List (List Call) × RunResult
  | [] => ([], RunResult.completed)
  | env :: rest =>
    match handleS3Record env with
    | (tr, RunResult.completed) =>
      let (trs, r) := runS3Records rest
      (tr :: trs, r)
    | (tr, RunResult.raised e) => ([tr], RunResult.raised e)

/-- The outer `for record in event.get('Records', [])` loop; each SQS
record carries a list of S3 records (an empty list is logged and
skipped).  An exception anywhere aborts both loops. -/
def runSQSRecords : List (List DocEnv) → List (List Call) × RunResult
  | [] => ([], RunResult.completed)
  | rs :: rest =>
    match runS3Records rs with
    | (trs, RunResult.completed) =>
      let (trs', r) := runSQSRecords rest
      (trs ++ trs', r)
    | (trs, RunResult.raised e) => (trs, RunResult.raised e)

/-- Shallow embedding of `lambda_handler(event, context)`
(src/lambdas/trigger-upload/index.py, lines 124-180).  The whole record
loop sits inside a single `try`/`except`: on any exception the handler
returns status 500; otherwise 200 ('Processing completed').  The first
component lists, per document record actually reached, its collaborator
trace. -/
def lambda_handler (event : List (List DocEnv)) : List (List Call) × Nat :=
  match runSQSRecords event with
  | (trs, RunResult.completed) => (trs, 200)
  | (trs, RunResult.raised _) => (trs, 500)

end TriggerUpload

namespace VietOCRServer

/-- An image reduced to its dimension state.  The pixel contents play no
role in the properties below; resizes and crops are tracked through
`(width, height)`, and every PIL/OpenCV operation used by the source
(`resize`, `thumbnail`, `crop`, the LAB contrast step, `Image.fromarray`)
either preserves dimensions or transforms them as modelled here. -/
structure Img where
  width : Nat
  height : Nat
deriving DecidableEq, Repr

/-- `max(img.size)` — the larger of the two sides. -/
def Img.maxSide (img : Img) : Nat := max img.width img.height

/-- Dimension effect of PIL `Image.thumbnail((m, m), LANCZOS)`: a no-op
when the image already fits in the target box, otherwise an in-place
shrink preserving the aspect ratio, with the minor side rounded to the
nearest integer (and at least 1). -/
def thumbnailDims (img : Img) (m : Nat) : Img :=
  if img.width ≤ m ∧ img.height ≤ m then img
  else if img.height ≤ img.width then
    ⟨m, max 1 (rnd ((m * img.height : ℚ) / img.width)).toNat⟩
  else
    ⟨max 1 (rnd ((m * img.width : ℚ) / img.height)).toNat, m⟩

/-- Dimension effect of
`img.resize((int(img.width * scale), int(img.height * scale)), LANCZOS)`. -/
def resizeDims (img : Img) (scale : ℚ) : Img :=
  ⟨(pyTrunc (img.width * scale)).toNat, (pyTrunc (img.height * scale)).toNat⟩

/-- Shallow embedding of `preprocess_image(img, for_detection)`
(src/backend/vietocr-server.py, lines 59-126), on dimension state.

Returns `(returned image, input image after the call)`: `img.thumbnail`
mutates its receiver in place, whereas `img.resize` returns a fresh image
and only rebinds the local name.  The contrast-enhancement step
(LAB split, `equalizeHist`, merge, `Image.fromarray`) preserves dimensions
and builds a new image, and on an internal exception the function returns
its (possibly thumbnailed) input unchanged — identical on this model. -/
def preprocess_image (img : Img) (for_detection : Bool) : Img × Img :=
  if for_detection then
    if img.maxSide > 5000 then
      let t := thumbnailDims img 3200
      (t, t)
    else if img.maxSide < 2000 then
      (resizeDims img (2400 / (img.maxSide : ℚ)), img)
    else (img, img)
  else
    if img.maxSide > 4000 then
      let t := thumbnailDims img 2400
      (t, t)
    else if img.maxSide < 1200 then
      (resizeDims img (1600 / (img.maxSide : ℚ)), img)
    else (img, img)

end VietOCRServer

namespace VietOCRServer

/-- A detected text polygon: the list of `(x, y)` points PaddleOCR returns
for one region, in detection-view pixel space (float coordinates, modelled
as exact rationals). -/
abbrev Poly := List (ℚ × ℚ)

/-- A patch handed to the recognition model `rec.predict`: either a crop of
the recognition view (recording the crop box and the final patch
dimensions after the small-crop upscale), or the whole recognition
image (the fallback). -/
inductive Patch
  | crop (x1 y1 x2 y2 patchW patchH : ℤ)
  | whole
deriving DecidableEq, Repr

/-- Region Extractor (src/backend/vietocr-server.py, lines 354-366),
on dimension state: crops with height below 48px are upscaled so the
height becomes exactly 48 and the width becomes
`int(crop.width * (48.0 / crop.height))`; taller crops pass through. -/
def extractPatchDims (w h : ℤ) : ℤ × ℤ :=
  if h < 48 then (pyTrunc ((w : ℚ) * (48 / (h : ℚ))), 48) else (w, h)

/-- Coordinate Mapper, scaling step (src/backend/vietocr-server.py,
lines 327-333): for a polygon with at least 4 points, each point's x is
multiplied by `scale_x` and truncated (`int(float(p[0]) * scale_x)`), each
y by `scale_y`, and the mins/maxes over all points are taken.  Polygons
with fewer than 4 points are skipped (`none`). -/
def scaledBounds (sx sy : ℚ) : Poly → Option (ℤ × ℤ × ℤ × ℤ)
  | [] => none
  | p :: ps =>
    if ps.length < 3 then none
    else
      let x0 := pyTrunc (p.1 * sx)
      let y0 := pyTrunc (p.2 * sy)
      let xs := ps.map fun q => pyTrunc (q.1 * sx)
      let ys := ps.map fun q => pyTrunc (q.2 * sy)
      some (xs.foldl min x0, ys.foldl min y0, xs.foldl max x0, ys.foldl max y0)

/-- Coordinate Mapper, pad-and-clamp step (src/backend/vietocr-server.py,
lines 342-346): expand the scaled bounding box by `pad = 5` on all sides
and clamp to `[0, W] × [0, H]` of the recognition view.  Returns
`(x1, y1, x2, y2)`. -/
def mapRegion (sx sy : ℚ) (W H : ℤ) (poly : Poly) : Option (ℤ × ℤ × ℤ × ℤ) :=
  match scaledBounds sx sy poly with
  | none => none
  | some (mnx, mny, mxx, mxy) =>
    some (max 0 (mnx - 5), max 0 (mny - 5), min W (mxx + 5), min H (mxy + 5))

/-- The per-region loop of the `/ocr` handler (src/backend/vietocr-server.py,
lines 319-391): map each polygon, keep only regions with
`x2 > x1 and y2 > y1`, crop, upscale small crops, recognize, and collect
the whitespace-trimmed non-empty texts in detection order.  Returns the
collected lines and the list of patches sent to the recognizer. -/
def runRegions (sx sy : ℚ) (W H : ℤ) (predict : Patch → String) :
    List Poly → List String × List Patch
  | [] => ([], [])
  | poly :: rest =>
    match mapRegion sx sy W H poly with
    | none => runRegions sx sy W H predict rest
    | some (x1, y1, x2, y2) =>
      if x1 < x2 ∧ y1 < y2 then
        let pd := extractPatchDims (x2 - x1) (y2 - y1)
        let patch := Patch.crop x1 y1 x2 y2 pd.1 pd.2
        let t := pyStrip (predict patch)
        let rec' := runRegions sx sy W H predict rest
        ((if t ≠ "" then t :: rec'.1 else rec'.1), patch :: rec'.2)
      else runRegions sx sy W H predict rest

/-- The HTTP response fields of a successful `/ocr` call. -/
structure OcrResponse where
  text : String
  success : Bool
  regions_detected : Nat
deriving DecidableEq, Repr

/-- Shallow embedding of the detect-then-recognize phase of the `/ocr`
handler (src/backend/vietocr-server.py, lines 298-446).

Inputs: `boxes`, the polygons of the first detection page as extracted
from the detector output (an empty list also covers a failed or empty
detection, for which `boxes_pages` stays `None`); the detection-view and
recognition-view images produced by `preprocess_image`; and `predict`,
the recognition model as a pure oracle from patches to text.

When `boxes` is non-empty, the scale factors
`scale_x = rec_W / det_W`, `scale_y = rec_H / det_H` are computed and the
region loop runs; otherwise the whole-image fallback recognition runs
once.  The response reports the joined text and
`regions_detected = len(lines)`.  The second component is the list of
patches actually sent to the recognizer. -/
def ocr (boxes : List Poly) (detectionImg recognitionImg : Img)
    (predict : Patch → String) : OcrResponse × List Patch :=
  let lp :=
    if boxes ≠ [] then
      let sx := (recognitionImg.width : ℚ) / detectionImg.width
      let sy := (recognitionImg.height : ℚ) / detectionImg.height
      runRegions sx sy recognitionImg.width recognitionImg.height predict
        boxes
    else
      let t := pyStrip (predict Patch.whole)
      ((if t ≠ "" then [t] else []), [Patch.whole])
  ({ text := pyJoin "\n" lp.1, success := true,
     regions_detected := lp.1.length }, lp.2)

end VietOCRServer




/-! ## Router lemmas -/

namespace TriggerUpload

lemma handleS3Record_raised (env : DocEnv) (e : ErrKind)
    (h : (process_legal_document env).2 = Outcome.raised e) :
    handleS3Record env = ((process_legal_document env).1, RunResult.raised e) := by
  rcases hpe : process_legal_document env with ⟨tr, o⟩
  rw [hpe] at h
  simp only at h
  subst h
  simp [handleS3Record, hpe]

lemma handleS3Record_completed (env : DocEnv) (b : Bool)
    (h : (process_legal_document env).2 = Outcome.ok b) :
    (handleS3Record env).2 = RunResult.completed := by
  rcases hpe : process_legal_document env with ⟨tr, o⟩
  rw [hpe] at h
  simp only at h
  subst h
  cases b <;> simp [handleS3Record, hpe]

lemma runS3Records_cons_raised (env : DocEnv) (rest : List DocEnv) (e : ErrKind)
    (h : (process_legal_document env).2 = Outcome.raised e) :
    runS3Records (env :: rest) =
      ([(process_legal_document env).1], RunResult.raised e) := by
  simp [runS3Records, handleS3Record_raised env e h]

lemma runS3Records_append_completed (pre l : List DocEnv)
    (h : (runS3Records pre).2 = RunResult.completed) :
    runS3Records (pre ++ l) =
      ((runS3Records pre).1 ++ (runS3Records l).1, (runS3Records l).2) := by
  induction pre with
  | nil => simp [runS3Records]
  | cons env rest ih =>
    rcases hh : handleS3Record env with ⟨tr, res⟩
    cases res with
    | completed =>
      have h' : (runS3Records rest).2 = RunResult.completed := by
        simpa [runS3Records, hh] using h
      simp [runS3Records, hh, ih h']
    | raised e =>
      exfalso
      simp [runS3Records, hh] at h

lemma runS3Records_length_completed (l : List DocEnv)
    (h : (runS3Records l).2 = RunResult.completed) :
    (runS3Records l).1.length = l.length := by
  induction l with
  | nil => simp [runS3Records]
  | cons env rest ih =>
    rcases hh : handleS3Record env with ⟨tr, res⟩
    cases res with
    | completed =>
      have h' : (runS3Records rest).2 = RunResult.completed := by
        simpa [runS3Records, hh] using h
      simp [runS3Records, hh, ih h']
    | raised e =>
      exfalso
      simp [runS3Records, hh] at h

end TriggerUpload

/-! ## Claim C1 -/

section C1
open TriggerUpload

/-- C1, as stated, is false on the code: in the batch below the first
document record raises (slow path, empty OCR text), and `lambda_handler`'s
single try/except makes the whole batch return status 500 with the second
record never processed (only one per-record trace exists), instead of
reporting overall completion. -/
theorem C1_counterexample :
    lambda_handler
      [[⟨some "Legal Registration", false, none, ""⟩],
       [⟨some "invoice", false, none, "x"⟩]] =
      ([[Call.headMeta, Call.qrDetect, Call.vietocr]], 500) := by decide

/-- C1 (amended): a raised exception while processing one document record
aborts the batch: the records before it are processed, the failing record's
trace is recorded, no later record is processed, and the batch-level
response is status 500 rather than completion. -/
theorem C1_batch_aborts_on_failure (pre post : List DocEnv) (env : DocEnv)
    (e : ErrKind)
    (hpre : (runS3Records pre).2 = RunResult.completed)
    (henv : (process_legal_document env).2 = Outcome.raised e) :
    (lambda_handler [pre ++ env :: post]).2 = 500 ∧
    (lambda_handler [pre ++ env :: post]).1.length = pre.length + 1 := by
  have happ := runS3Records_append_completed pre (env :: post) hpre
  have hcons := runS3Records_cons_raised env post e henv
  have hrun : runS3Records (pre ++ env :: post) =
      ((runS3Records pre).1 ++ [(process_legal_document env).1],
        RunResult.raised e) := by
    rw [happ, hcons]
  have hlen := runS3Records_length_completed pre hpre
  constructor
  · simp [lambda_handler, runSQSRecords, hrun]
  · simp [lambda_handler, runSQSRecords, hrun, hlen]

/-- Witness for `C1_batch_aborts_on_failure` at a concrete two-record
batch. -/
theorem C1_batch_aborts_on_failure_witness :
    (lambda_handler [[⟨some "Legal Registration", false, none, ""⟩,
        ⟨some "invoice", false, none, "x"⟩]]).2 = 500 ∧
    (lambda_handler [[⟨some "Legal Registration", false, none, ""⟩,
        ⟨some "invoice", false, none, "x"⟩]]).1.length = 0 + 1 :=
  C1_batch_aborts_on_failure [] [⟨some "invoice", false, none, "x"⟩]
    ⟨some "Legal Registration", false, none, ""⟩ ErrKind.extractionEmpty
    (by decide) (by decide)

end C1

/-! ## Claim C4 -/

section C4
open TriggerUpload

/-- C4: on the slow path (legal-registration document, code-decode reports
no usable code), empty extraction text makes the router raise the
extraction-empty failure without invoking the question-answering or
persistence collaborators; non-empty extraction text leads to the full
slow-path trace, with question-answering invoked synchronously before the
asynchronous persistence invocation. -/
theorem C4_slow_path (env : DocEnv)
    (hlegal : pyLower (env.docType.getD "") = "legal registration")
    (hnoqr : ¬(env.hasQR ∧ env.decodedText.getD "" ≠ "")) :
    (env.ocrText = "" →
      (process_legal_document env).2 = Outcome.raised ErrKind.extractionEmpty ∧
      Call.bedrockQA ∉ (process_legal_document env).1 ∧
      Call.saverAsync ∉ (process_legal_document env).1) ∧
    (env.ocrText ≠ "" →
      (process_legal_document env).2 = Outcome.ok true ∧
      (process_legal_document env).1 =
        [Call.headMeta, Call.qrDetect, Call.vietocr, Call.bedrockQA,
          Call.saverAsync]) := by
  constructor
  · intro hocr
    simp [process_legal_document, hlegal, hnoqr, hocr]
  · intro hocr
    simp [process_legal_document, hlegal, hnoqr, hocr]

/-- Witness for `C4_slow_path`: a concrete legal-registration document
with no QR code. -/
theorem C4_slow_path_witness :
    ((⟨some "Legal Registration", false, none, ""⟩ : DocEnv).ocrText = "" →
      (process_legal_document ⟨some "Legal Registration", false, none, ""⟩).2 =
        Outcome.raised ErrKind.extractionEmpty ∧
      Call.bedrockQA ∉
        (process_legal_document ⟨some "Legal Registration", false, none, ""⟩).1 ∧
      Call.saverAsync ∉
        (process_legal_document ⟨some "Legal Registration", false, none, ""⟩).1) ∧
    ((⟨some "Legal Registration", false, none, ""⟩ : DocEnv).ocrText ≠ "" →
      (process_legal_document ⟨some "Legal Registration", false, none, ""⟩).2 =
        Outcome.ok true ∧
      (process_legal_document ⟨some "Legal Registration", false, none, ""⟩).1 =
        [Call.headMeta, Call.qrDetect, Call.vietocr, Call.bedrockQA,
          Call.saverAsync]) :=
  C4_slow_path ⟨some "Legal Registration", false, none, ""⟩ (by decide)
    (by decide)

end C4

/-! ## Claim C5 -/

section C5
open TriggerUpload

/-- C5: a document whose `document-type` tag is anything other than
"legal registration" under case-insensitive comparison (a missing tag
reads as the empty string) makes `process_legal_document` return `False`
after only the metadata lookup — the code-decode collaborator is never
invoked — and the handler then hands the document to the generic
processing path. -/
theorem C5_not_applicable (env : DocEnv)
    (h : pyLower (env.docType.getD "") ≠ "legal registration") :
    process_legal_document env = ([Call.headMeta], Outcome.ok false) ∧
    Call.qrDetect ∉ (handleS3Record env).1 ∧
    handleS3Record env = ([Call.headMeta, Call.generic], RunResult.completed) := by
  have hp : process_legal_document env = ([Call.headMeta], Outcome.ok false) := by
    simp [process_legal_document, h]
  refine ⟨hp, ?_, ?_⟩
  · simp [handleS3Record, hp]
  · simp [handleS3Record, hp]

/-- Witness for `C5_not_applicable`: a document with no `document-type`
tag at all, which would even have a decodable QR code — the code-decode
collaborator is still never invoked. -/
theorem C5_not_applicable_witness :
    process_legal_document ⟨none, true, some "payload", "t"⟩ =
      ([Call.headMeta], Outcome.ok false) ∧
    Call.qrDetect ∉ (handleS3Record ⟨none, true, some "payload", "t"⟩).1 ∧
    handleS3Record ⟨none, true, some "payload", "t"⟩ =
      ([Call.headMeta, Call.generic], RunResult.completed) :=
  C5_not_applicable ⟨none, true, some "payload", "t"⟩ (by decide)

end C5

/-! ## Normalizer lemmas -/

lemma rnd_le (q : ℚ) : (rnd q : ℚ) ≤ q + 1/2 := by
  simpa [rnd] using Int.floor_le (q + 1/2)

lemma lt_rnd (q : ℚ) : q - 1/2 < rnd q := by
  have hfl := Int.lt_floor_add_one (q + 1/2)
  simp only [rnd]
  push_cast at hfl ⊢
  linarith

lemma one_le_rnd (q : ℚ) (h : 1/2 ≤ q) : 1 ≤ rnd q := by
  rw [rnd, Int.le_floor]
  push_cast
  linarith

namespace VietOCRServer

lemma resizeDims_maxSide (w h t : Nat) (hw : 0 < w) (hh : 0 < h) (ht : 0 < t) :
    (resizeDims ⟨w, h⟩ ((t : ℚ) / (Img.maxSide ⟨w, h⟩ : ℚ))).maxSide = t := by
  rcases le_total w h with hwh | hwh
  · have hM : Img.maxSide ⟨w, h⟩ = h := by
      simp [Img.maxSide, Nat.max_eq_right hwh]
    rw [hM]
    have hh0 : ((h : ℚ)) ≠ 0 := by positivity
    have hqh : (h : ℚ) * ((t : ℚ) / (h : ℚ)) = (t : ℚ) := by
      field_simp
    have hqw0 : (0 : ℚ) ≤ (w : ℚ) * ((t : ℚ) / (h : ℚ)) := by positivity
    have hqh0 : (0 : ℚ) ≤ (h : ℚ) * ((t : ℚ) / (h : ℚ)) := by positivity
    have hfh : pyTrunc ((h : ℚ) * ((t : ℚ) / (h : ℚ))) = (t : ℤ) := by
      rw [pyTrunc, if_pos hqh0, hqh]
      exact_mod_cast Int.floor_natCast t
    have hle : (w : ℚ) * ((t : ℚ) / (h : ℚ)) ≤ (h : ℚ) * ((t : ℚ) / (h : ℚ)) := by
      have : (0 : ℚ) ≤ (t : ℚ) / (h : ℚ) := by positivity
      have hwhq : (w : ℚ) ≤ (h : ℚ) := by exact_mod_cast hwh
      exact mul_le_mul_of_nonneg_right hwhq this
    have hfw : pyTrunc ((w : ℚ) * ((t : ℚ) / (h : ℚ))) ≤ (t : ℤ) := by
      rw [pyTrunc, if_pos hqw0]
      calc ⌊(w : ℚ) * ((t : ℚ) / (h : ℚ))⌋ ≤ ⌊(h : ℚ) * ((t : ℚ) / (h : ℚ))⌋ :=
            Int.floor_le_floor hle
        _ = (t : ℤ) := by rw [hqh]; exact_mod_cast Int.floor_natCast t
    have hwt : (pyTrunc ((w : ℚ) * ((t : ℚ) / (h : ℚ)))).toNat ≤ t := by
      rw [Int.toNat_le]
      exact hfw
    simp only [resizeDims, Img.maxSide, hfh, Int.toNat_natCast]
    omega
  · have hM : Img.maxSide ⟨w, h⟩ = w := by
      simp [Img.maxSide, Nat.max_eq_left hwh]
    rw [hM]
    have hw0 : ((w : ℚ)) ≠ 0 := by positivity
    have hqw : (w : ℚ) * ((t : ℚ) / (w : ℚ)) = (t : ℚ) := by
      field_simp
    have hqh0 : (0 : ℚ) ≤ (h : ℚ) * ((t : ℚ) / (w : ℚ)) := by positivity
    have hfw : pyTrunc ((w : ℚ) * ((t : ℚ) / (w : ℚ))) = (t : ℤ) := by
      rw [pyTrunc, if_pos (by positivity), hqw]
      exact_mod_cast Int.floor_natCast t
    have hle : (h : ℚ) * ((t : ℚ) / (w : ℚ)) ≤ (w : ℚ) * ((t : ℚ) / (w : ℚ)) := by
      have : (0 : ℚ) ≤ (t : ℚ) / (w : ℚ) := by positivity
      have hwhq : (h : ℚ) ≤ (w : ℚ) := by exact_mod_cast hwh
      exact mul_le_mul_of_nonneg_right hwhq this
    have hfh : pyTrunc ((h : ℚ) * ((t : ℚ) / (w : ℚ))) ≤ (t : ℤ) := by
      rw [pyTrunc, if_pos hqh0]
      calc ⌊(h : ℚ) * ((t : ℚ) / (w : ℚ))⌋ ≤ ⌊(w : ℚ) * ((t : ℚ) / (w : ℚ))⌋ :=
            Int.floor_le_floor hle
        _ = (t : ℤ) := by rw [hqw]; exact_mod_cast Int.floor_natCast t
    have hht : (pyTrunc ((h : ℚ) * ((t : ℚ) / (w : ℚ)))).toNat ≤ t := by
      rw [Int.toNat_le]
      exact hfh
    simp only [resizeDims, Img.maxSide, hfw, Int.toNat_natCast]
    omega

lemma thumbnailDims_maxSide (w h m : Nat) (hw : 0 < w) (hh : 0 < h)
    (hm : 0 < m) (hbig : ¬(w ≤ m ∧ h ≤ m)) :
    (thumbnailDims ⟨w, h⟩ m).maxSide = m := by
  simp only [thumbnailDims]
  rw [if_neg hbig]
  rcases le_or_lt h w with hwh | hwh
  · rw [if_pos hwh]
    have hq : (m * h : ℚ) / (w : ℚ) ≤ (m : ℚ) := by
      rw [div_le_iff₀ (by positivity)]
      have : (h : ℚ) ≤ (w : ℚ) := by exact_mod_cast hwh
      nlinarith
    have hr : rnd ((m * h : ℚ) / (w : ℚ)) ≤ (m : ℤ) := by
      have h1 : (rnd ((m * h : ℚ) / (w : ℚ)) : ℚ) ≤ (m : ℚ) + 1/2 := by
        calc (rnd ((m * h : ℚ) / (w : ℚ)) : ℚ) ≤ (m * h : ℚ) / (w : ℚ) + 1/2 :=
              rnd_le _
          _ ≤ (m : ℚ) + 1/2 := by linarith
      have h2 : (rnd ((m * h : ℚ) / (w : ℚ)) : ℚ) < (m : ℚ) + 1 := by linarith
      have h3 : rnd ((m * h : ℚ) / (w : ℚ)) < (m : ℤ) + 1 := by exact_mod_cast h2
      omega
    have hrt : (rnd ((m * h : ℚ) / (w : ℚ))).toNat ≤ m := by
      rw [Int.toNat_le]
      exact hr
    simp only [Img.maxSide]
    omega
  · rw [if_neg (by omega)]
    have hq : (m * w : ℚ) / (h : ℚ) ≤ (m : ℚ) := by
      rw [div_le_iff₀ (by positivity)]
      have : (w : ℚ) ≤ (h : ℚ) := by exact_mod_cast hwh.le
      nlinarith
    have hr : rnd ((m * w : ℚ) / (h : ℚ)) ≤ (m : ℤ) := by
      have h1 : (rnd ((m * w : ℚ) / (h : ℚ)) : ℚ) ≤ (m : ℚ) + 1/2 := by
        calc (rnd ((m * w : ℚ) / (h : ℚ)) : ℚ) ≤ (m * w : ℚ) / (h : ℚ) + 1/2 :=
              rnd_le _
          _ ≤ (m : ℚ) + 1/2 := by linarith
      have h2 : (rnd ((m * w : ℚ) / (h : ℚ)) : ℚ) < (m : ℚ) + 1 := by linarith
      have h3 : rnd ((m * w : ℚ) / (h : ℚ)) < (m : ℤ) + 1 := by exact_mod_cast h2
      omega
    have hrt : (rnd ((m * w : ℚ) / (h : ℚ))).toNat ≤ m := by
      rw [Int.toNat_le]
      exact hr
    simp only [Img.maxSide]
    omega

end VietOCRServer

namespace VietOCRServer

lemma thumbnailDims_aspect (w h m : Nat) (hw : 0 < w) (hh : 0 < h)
    (_hm : 0 < m) (hbig : ¬(w ≤ m ∧ h ≤ m))
    (hcl : ((max w h : ℕ) : ℚ) ≤ 2 * (m : ℚ) * ((min w h : ℕ) : ℚ)) :
    |((thumbnailDims ⟨w, h⟩ m).width : ℚ) * (h : ℚ) -
      ((thumbnailDims ⟨w, h⟩ m).height : ℚ) * (w : ℚ)| * 2 ≤
      ((max w h : ℕ) : ℚ) := by
  simp only [thumbnailDims]
  rw [if_neg hbig]
  rcases le_or_lt h w with hwh | hwh
  · rw [if_pos hwh, Nat.max_eq_left hwh]
    rw [Nat.max_eq_left hwh, Nat.min_eq_right hwh] at hcl
    set q : ℚ := (m * h : ℚ) / (w : ℚ) with hqdef
    have hw0 : (0 : ℚ) < (w : ℚ) := by positivity
    have hq2 : q * (w : ℚ) = (m : ℚ) * (h : ℚ) := by
      rw [hqdef]
      field_simp
    have hhalf : 1/2 ≤ q := by
      rw [hqdef, le_div_iff₀ hw0]
      linarith
    have h1 : 1 ≤ rnd q := one_le_rnd q hhalf
    have hmaxeq : max 1 (rnd q).toNat = (rnd q).toNat := by omega
    have hcast : (((rnd q).toNat : ℕ) : ℚ) = ((rnd q : ℤ) : ℚ) := by
      have : ((rnd q).toNat : ℤ) = rnd q := Int.toNat_of_nonneg (by omega)
      exact_mod_cast this
    simp only [hmaxeq]
    rw [hcast]
    have hup : (rnd q : ℚ) ≤ q + 1/2 := rnd_le q
    have hdn : q - 1/2 < (rnd q : ℚ) := lt_rnd q
    rcases abs_cases ((m : ℚ) * (h : ℚ) - (rnd q : ℚ) * (w : ℚ)) with
      ⟨he, _⟩ | ⟨he, _⟩ <;> rw [he] <;> nlinarith
  · rw [if_neg (by omega), Nat.max_eq_right hwh.le]
    rw [Nat.max_eq_right hwh.le, Nat.min_eq_left hwh.le] at hcl
    set q : ℚ := (m * w : ℚ) / (h : ℚ) with hqdef
    have hh0 : (0 : ℚ) < (h : ℚ) := by positivity
    have hq2 : q * (h : ℚ) = (m : ℚ) * (w : ℚ) := by
      rw [hqdef]
      field_simp
    have hhalf : 1/2 ≤ q := by
      rw [hqdef, le_div_iff₀ hh0]
      linarith
    have h1 : 1 ≤ rnd q := one_le_rnd q hhalf
    have hmaxeq : max 1 (rnd q).toNat = (rnd q).toNat := by omega
    have hcast : (((rnd q).toNat : ℕ) : ℚ) = ((rnd q : ℤ) : ℚ) := by
      have : ((rnd q).toNat : ℤ) = rnd q := Int.toNat_of_nonneg (by omega)
      exact_mod_cast this
    simp only [hmaxeq]
    rw [hcast]
    have hup : (rnd q : ℚ) ≤ q + 1/2 := rnd_le q
    have hdn : q - 1/2 < (rnd q : ℚ) := lt_rnd q
    rcases abs_cases ((rnd q : ℚ) * (h : ℚ) - (m : ℚ) * (w : ℚ)) with
      ⟨he, _⟩ | ⟨he, _⟩ <;> rw [he] <;> nlinarith

end VietOCRServer

/-! ## Claim C3 -/

section C3
open VietOCRServer

/-- C3, as stated, is false on the code: for a 6000x4000 page in detection
mode, `preprocess_image` calls `img.thumbnail((3200, 3200), LANCZOS)`,
which resizes the input image in place; after the call the input's
dimensions are 3200x2133, not the original 6000x4000. -/
theorem C3_counterexample :
    (preprocess_image ⟨6000, 4000⟩ true).2 = ⟨3200, 2133⟩ ∧
    (⟨3200, 2133⟩ : Img) ≠ (⟨6000, 4000⟩ : Img) := by
  constructor
  · norm_num [preprocess_image, Img.maxSide, thumbnailDims, rnd]
    decide
  · decide

/-- C3 (amended): `preprocess_image` leaves its input image unchanged
exactly when the thumbnail branch is not taken, i.e. when the max side is
at most 5000 in detection mode and at most 4000 in recognition mode;
above those thresholds `img.thumbnail` mutates the input in place. -/
theorem C3_no_mutation_below_threshold (img : Img) (for_detection : Bool)
    (hdet : for_detection = true → img.maxSide ≤ 5000)
    (hrec : for_detection = false → img.maxSide ≤ 4000) :
    (preprocess_image img for_detection).2 = img := by
  cases for_detection with
  | true =>
    have h5 := hdet rfl
    rw [preprocess_image]
    rw [if_pos rfl, if_neg (by omega)]
    split <;> rfl
  | false =>
    have h4 := hrec rfl
    rw [preprocess_image]
    rw [if_neg (by simp), if_neg (by omega)]
    split <;> rfl

/-- Witness for `C3_no_mutation_below_threshold` at a concrete 800x600
page in detection mode. -/
theorem C3_no_mutation_below_threshold_witness :
    (preprocess_image ⟨800, 600⟩ true).2 = ⟨800, 600⟩ :=
  C3_no_mutation_below_threshold ⟨800, 600⟩ true (fun _ => by decide)
    (fun hc => by simp at hc)

end C3

/-! ## Claim C9 -/

section C9
open VietOCRServer

/-- C9: in detection mode the Normalizer (1) performs no resize for images
whose max side lies in [2000, 4000]; (2) for max side < 2000 rescales so
the output max side is exactly 2400 (= round(2400 * maxSide / maxSide));
(3) for max side > 5000 downscales so the output max side is at most 3200,
(4) preserving the aspect ratio up to the integer rounding of the minor
side (cross-multiplied sides agree to within half the max side, whenever
the 1px floor of PIL's rounding is not in play). -/
theorem C9_detection_scaling (w h : Nat) (hw : 0 < w) (hh : 0 < h) :
    (2000 ≤ max w h → max w h ≤ 4000 →
      (preprocess_image ⟨w, h⟩ true).1 = ⟨w, h⟩) ∧
    (max w h < 2000 →
      ((preprocess_image ⟨w, h⟩ true).1).maxSide = 2400) ∧
    (5000 < max w h →
      ((preprocess_image ⟨w, h⟩ true).1).maxSide ≤ 3200) ∧
    (5000 < max w h → ((max w h : ℕ) : ℚ) ≤ 6400 * ((min w h : ℕ) : ℚ) →
      |((preprocess_image ⟨w, h⟩ true).1.width : ℚ) * (h : ℚ) -
        ((preprocess_image ⟨w, h⟩ true).1.height : ℚ) * (w : ℚ)| * 2 ≤
        ((max w h : ℕ) : ℚ)) := by
  have hms : Img.maxSide ⟨w, h⟩ = max w h := rfl
  refine ⟨?_, ?_, ?_, ?_⟩
  · intro h1 h2
    rw [preprocess_image, if_pos rfl, if_neg (by rw [hms]; omega),
      if_neg (by rw [hms]; omega)]
  · intro h1
    rw [preprocess_image, if_pos rfl, if_neg (by rw [hms]; omega),
      if_pos (by rw [hms]; omega)]
    have := resizeDims_maxSide w h 2400 hw hh (by norm_num)
    simpa [Img.maxSide] using this
  · intro h1
    rw [preprocess_image, if_pos rfl, if_pos (by rw [hms]; omega)]
    show (thumbnailDims ⟨w, h⟩ 3200).maxSide ≤ 3200
    have := thumbnailDims_maxSide w h 3200 hw hh (by norm_num) (by omega)
    omega
  · intro h1 h2
    rw [preprocess_image, if_pos rfl, if_pos (by rw [hms]; omega)]
    have := thumbnailDims_aspect w h 3200 hw hh (by norm_num) (by omega)
      (by push_cast at h2 ⊢; linarith)
    simpa using this

/-- Witness for `C9_detection_scaling` at a concrete 6000x4000 page:
the thumbnail branch produces max side at most 3200. -/
theorem C9_detection_scaling_witness :
    (preprocess_image ⟨6000, 4000⟩ true).1.maxSide ≤ 3200 :=
  (C9_detection_scaling 6000 4000 (by decide) (by decide)).2.2.1 (by decide)

end C9

/-! ## OCR pipeline lemmas -/

namespace VietOCRServer

lemma runRegions_patches_crop (sx sy : ℚ) (W H : ℤ)
    (predict : Patch → String) :
    ∀ (boxes : List Poly) (p : Patch),
      p ∈ (runRegions sx sy W H predict boxes).2 →
      ∃ x1 y1 x2 y2 pw ph,
        p = Patch.crop x1 y1 x2 y2 pw ph ∧ x1 < x2 ∧ y1 < y2 := by
  intro boxes
  induction boxes with
  | nil =>
    intro p hp
    simp [runRegions] at hp
  | cons poly rest ih =>
    intro p hp
    rw [runRegions] at hp
    split at hp
    · exact ih p hp
    · rename_i x1 y1 x2 y2 heq
      by_cases hv : x1 < x2 ∧ y1 < y2
      · rw [if_pos hv] at hp
        simp only [List.mem_cons] at hp
        rcases hp with hp | hp
        · exact ⟨x1, y1, x2, y2, _, _, hp, hv.1, hv.2⟩
        · exact ih p hp
      · rw [if_neg hv] at hp
        exact ih p hp

lemma runRegions_lines_filter (sx sy : ℚ) (W H : ℤ)
    (predict : Patch → String) :
    ∀ boxes : List Poly,
      (runRegions sx sy W H predict boxes).1.length =
        ((runRegions sx sy W H predict boxes).2.filter
          (fun p => pyStrip (predict p) != "")).length := by
  intro boxes
  induction boxes with
  | nil => simp [runRegions]
  | cons poly rest ih =>
    rw [runRegions]
    split
    · exact ih
    · rename_i x1 y1 x2 y2 heq
      by_cases hv : x1 < x2 ∧ y1 < y2
      · rw [if_pos hv]
        by_cases ht :
            pyStrip (predict (Patch.crop x1 y1 x2 y2
              (extractPatchDims (x2 - x1) (y2 - y1)).1
              (extractPatchDims (x2 - x1) (y2 - y1)).2)) = ""
        · simp only [List.filter_cons, ht]
          simp [ht, ih]
        · simp only [List.filter_cons]
          simp [ht, ih]
      · rw [if_neg hv]
        exact ih

lemma runRegions_no_whole (sx sy : ℚ) (W H : ℤ) (predict : Patch → String)
    (boxes : List Poly) :
    Patch.whole ∉ (runRegions sx sy W H predict boxes).2 := by
  intro hmem
  obtain ⟨x1, y1, x2, y2, pw, ph, heq, -, -⟩ :=
    runRegions_patches_crop sx sy W H predict boxes Patch.whole hmem
  exact Patch.noConfusion heq

end VietOCRServer

/-! ## Claim C2 -/

section C2
open VietOCRServer

/-- C2, as stated, is false on the code: for a non-empty detected region
list in which the single region recognizes to the empty string (so no
region yields non-empty trimmed text), the whole-image fallback does not
run (no `Patch.whole` is ever sent to the recognizer) and the document
text is simply empty. -/
theorem C2_counterexample :
    ([[(10, 10), (50, 10), (50, 50), (10, 50)]] : List Poly) ≠ [] ∧
    (ocr [[(10, 10), (50, 10), (50, 50), (10, 50)]] ⟨1000, 1000⟩
      ⟨1000, 1000⟩ (fun _ => "")).2.count Patch.whole = 0 ∧
    (ocr [[(10, 10), (50, 10), (50, 50), (10, 50)]] ⟨1000, 1000⟩
      ⟨1000, 1000⟩ (fun _ => "")).1 = ⟨"", true, 0⟩ := by
  refine ⟨by simp, ?_, ?_⟩
  · norm_num [ocr, runRegions, mapRegion, scaledBounds, pyTrunc,
      extractPatchDims, pyStrip]
    decide
  · norm_num [ocr, runRegions, mapRegion, scaledBounds, pyTrunc,
      extractPatchDims, pyStrip]
    decide

/-- C2 (amended): the whole-image fallback recognition runs exactly once
when the detected region list is empty and never otherwise — in
particular it does not run when regions exist but none yields non-empty
trimmed text; when it runs, the (possibly empty) trimmed fallback text is
the document text. -/
theorem C2_fallback_only_when_no_boxes (boxes : List Poly) (d r : Img)
    (predict : Patch → String) :
    (ocr boxes d r predict).2.count Patch.whole =
      (if boxes = [] then 1 else 0) ∧
    (boxes = [] →
      (ocr boxes d r predict).1.text = pyStrip (predict Patch.whole)) := by
  by_cases hb : boxes = []
  · subst hb
    refine ⟨by simp [ocr], fun _ => ?_⟩
    by_cases ht : pyStrip (predict Patch.whole) = "" <;>
      simp [ocr, ht, pyJoin]
  · refine ⟨?_, fun hc => absurd hc hb⟩
    rw [if_neg hb, List.count_eq_zero]
    intro hmem
    have hpatches : (ocr boxes d r predict).2 =
        (runRegions ((r.width : ℚ) / d.width) ((r.height : ℚ) / d.height)
          (r.width : ℤ) (r.height : ℤ) predict boxes).2 := by
      simp [ocr, hb]
    rw [hpatches] at hmem
    exact runRegions_no_whole _ _ _ _ predict boxes hmem

/-- Witness for `C2_fallback_only_when_no_boxes` at an empty region
list. -/
theorem C2_fallback_only_when_no_boxes_witness :
    (ocr [] ⟨1000, 1000⟩ ⟨1000, 1000⟩ (fun _ => "x")).2.count Patch.whole =
      (if ([] : List Poly) = [] then 1 else 0) ∧
    (([] : List Poly) = [] →
      (ocr [] ⟨1000, 1000⟩ ⟨1000, 1000⟩ (fun _ => "x")).1.text =
        pyStrip ((fun _ => "x") Patch.whole)) :=
  C2_fallback_only_when_no_boxes [] ⟨1000, 1000⟩ ⟨1000, 1000⟩ (fun _ => "x")

end C2

/-! ## Claim C7 -/

section C7
open VietOCRServer

/-- C7: every patch that reaches the Region Extractor / Text Recognizer in
the per-region loop is a crop whose clamped box satisfies
`x1 < x2 ∧ y1 < y2`; a polygon whose mapped, padded and clamped box is
degenerate (`x2 ≤ x1` or `y2 ≤ y1`) is skipped without error, contributing
neither a patch nor a line. -/
theorem C7_degenerate_regions_discarded (sx sy : ℚ) (W H : ℤ)
    (predict : Patch → String) :
    (∀ (boxes : List Poly) (p : Patch),
      p ∈ (runRegions sx sy W H predict boxes).2 →
      ∃ x1 y1 x2 y2 pw ph,
        p = Patch.crop x1 y1 x2 y2 pw ph ∧ x1 < x2 ∧ y1 < y2) ∧
    (∀ (poly : Poly) (rest : List Poly) (x1 y1 x2 y2 : ℤ),
      mapRegion sx sy W H poly = some (x1, y1, x2, y2) →
      (x2 ≤ x1 ∨ y2 ≤ y1) →
      runRegions sx sy W H predict (poly :: rest) =
        runRegions sx sy W H predict rest) := by
  refine ⟨runRegions_patches_crop sx sy W H predict, ?_⟩
  intro poly rest x1 y1 x2 y2 hmr hdeg
  rw [runRegions]
  simp only [hmr]
  rw [if_neg (by omega)]

/-- Witness for `C7_degenerate_regions_discarded`: a polygon mapped
against a 0x0 recognition view clamps to the degenerate box
`(0, 0, 0, 0)` and is skipped. -/
theorem C7_degenerate_regions_discarded_witness :
    runRegions 1 1 0 0 (fun _ => "x")
      [[(0, 0), (0, 0), (0, 0), (0, 0)]] =
      runRegions 1 1 0 0 (fun _ => "x") [] :=
  (C7_degenerate_regions_discarded 1 1 0 0 (fun _ => "x")).2
    [(0, 0), (0, 0), (0, 0), (0, 0)] [] 0 0 0 0
    (by simp [mapRegion, scaledBounds, pyTrunc]) (by simp)

end C7

/-! ## Claim C8 -/

section C8
open VietOCRServer

/-- C8, as stated, is false on the code: for a 13x30 crop the code
computes `int(13 * (48.0 / 30)) = 20` as the output width
(`int()` truncates), whereas the claimed `round(13 * 48 / 30) = 21`. -/
theorem C8_counterexample :
    extractPatchDims 13 30 = (20, 48) ∧ rnd ((13 * 48 : ℚ) / 30) = 21 := by
  constructor
  · norm_num [extractPatchDims, pyTrunc]
  · norm_num [rnd]

/-- C8 (amended): a crop of height < 48 is upscaled to height exactly 48
with output width `⌊width * 48 / height⌋` (truncation, not rounding),
which never shrinks the width; a crop of height at least 48 passes through
unchanged — the extractor never downscales. -/
theorem C8_extractor_upscale (w h : ℤ) (hw : 0 ≤ w) (hh : 0 < h) :
    (h < 48 →
      (extractPatchDims w h).2 = 48 ∧
      (extractPatchDims w h).1 = ⌊(w : ℚ) * (48 / (h : ℚ))⌋ ∧
      w ≤ (extractPatchDims w h).1) ∧
    (48 ≤ h → extractPatchDims w h = (w, h)) := by
  have hhq : (0 : ℚ) < (h : ℚ) := by exact_mod_cast hh
  have hwq : (0 : ℚ) ≤ (w : ℚ) := by exact_mod_cast hw
  constructor
  · intro h48
    rw [extractPatchDims, if_pos h48]
    have hq0 : (0 : ℚ) ≤ (w : ℚ) * (48 / (h : ℚ)) := by positivity
    refine ⟨rfl, by simp [pyTrunc, hq0], ?_⟩
    simp only [pyTrunc, if_pos hq0]
    rw [Int.le_floor]
    have h1 : (1 : ℚ) ≤ 48 / (h : ℚ) := by
      rw [le_div_iff₀ hhq]
      have : (h : ℚ) ≤ 48 := by exact_mod_cast h48.le
      linarith
    exact le_mul_of_one_le_right hwq h1
  · intro h48
    rw [extractPatchDims, if_neg (by omega)]

/-- Witness for `C8_extractor_upscale` at the 13x30 crop. -/
theorem C8_extractor_upscale_witness :
    ((30 : ℤ) < 48 →
      (extractPatchDims 13 30).2 = 48 ∧
      (extractPatchDims 13 30).1 = ⌊((13 : ℤ) : ℚ) * (48 / ((30 : ℤ) : ℚ))⌋ ∧
      (13 : ℤ) ≤ (extractPatchDims 13 30).1) ∧
    ((48 : ℤ) ≤ 30 → extractPatchDims 13 30 = (13, 30)) :=
  C8_extractor_upscale 13 30 (by decide) (by decide)

end C8

/-! ## Claim C6 -/

section C6
open VietOCRServer

/-- C6: the Coordinate Mapper on the spec's example — a polygon forming
box (10,10)-(50,50) in a 1000x1000 detection view mapped into a 2000x2000
recognition view (scale factors 2000/1000 on each axis) — produces the
scaled box (20,20)-(100,100) before padding and the region
(15,15)-(105,105) after the 5px pad and clamp; the end-to-end pipeline
sends exactly that region (90x90 crop, not upscaled) to the recognizer. -/
theorem C6_coordinate_mapper_example :
    scaledBounds ((2000 : ℚ) / 1000) ((2000 : ℚ) / 1000)
      [(10, 10), (50, 10), (50, 50), (10, 50)] = some (20, 20, 100, 100) ∧
    mapRegion ((2000 : ℚ) / 1000) ((2000 : ℚ) / 1000) 2000 2000
      [(10, 10), (50, 10), (50, 50), (10, 50)] = some (15, 15, 105, 105) ∧
    (ocr [[(10, 10), (50, 10), (50, 50), (10, 50)]] ⟨1000, 1000⟩
        ⟨2000, 2000⟩ (fun _ => "A")).2 =
      [Patch.crop 15 15 105 105 90 90] := by
  refine ⟨?_, ?_, ?_⟩
  · norm_num [scaledBounds, pyTrunc]
  · norm_num [mapRegion, scaledBounds, pyTrunc]
  · norm_num [ocr, runRegions, mapRegion, scaledBounds, pyTrunc,
      extractPatchDims]

end C6

/-! ## Claim C10 -/

section C10
open VietOCRServer

/-- C10: `regions_detected` in a successful `/ocr` response equals the
number of recognized patches whose trimmed text was non-empty (the kept
lines), which is at most 1 when the whole-image fallback ran, and can be
strictly smaller than the number of detected boxes (concretely: one
detected box whose region recognizes to whitespace gives
`regions_detected = 0 < 1`). -/
theorem C10_regions_detected_counts_kept_lines (boxes : List Poly)
    (d r : Img) (predict : Patch → String) :
    ((ocr boxes d r predict).1.regions_detected =
      ((ocr boxes d r predict).2.filter
        (fun p => pyStrip (predict p) != "")).length) ∧
    (boxes = [] → (ocr boxes d r predict).1.regions_detected ≤ 1) ∧
    ((ocr [[(10, 10), (50, 10), (50, 50), (10, 50)]] ⟨1000, 1000⟩
        ⟨1000, 1000⟩ (fun _ => " ")).1.regions_detected <
      ([[(10, 10), (50, 10), (50, 50), (10, 50)]] : List Poly).length) := by
  refine ⟨?_, ?_, ?_⟩
  · by_cases hb : boxes = []
    · subst hb
      by_cases ht : pyStrip (predict Patch.whole) = "" <;>
        simp [ocr, ht]
    · have := runRegions_lines_filter ((r.width : ℚ) / d.width)
        ((r.height : ℚ) / d.height) (r.width : ℤ) (r.height : ℤ)
        predict boxes
      simpa [ocr, hb] using this
  · intro hb
    subst hb
    by_cases ht : pyStrip (predict Patch.whole) = "" <;>
      simp [ocr, ht]
  · norm_num [ocr, runRegions, mapRegion, scaledBounds, pyTrunc,
      extractPatchDims]
    decide

/-- Witness for `C10_regions_detected_counts_kept_lines` with an empty
region list: the fallback contributes at most one counted region. -/
theorem C10_regions_detected_counts_kept_lines_witness :
    (ocr [] ⟨1000, 1000⟩ ⟨1000, 1000⟩
      (fun _ => "x")).1.regions_detected ≤ 1 :=
  (C10_regions_detected_counts_kept_lines [] ⟨1000, 1000⟩ ⟨1000, 1000⟩
    (fun _ => "x")).2.1 rfl

end C10
